import Mathlib

/-!
Verification of the AWS auto-discovery selector of `gomemcache`
(`memcache/aws_discovery_selector.go`).

The Go byte slices that flow through `parseNodes` are embedded as `List Char`
(all the protocol data is ASCII).  The buffered stream read by
`bufio.ReadSlice('\n')` is embedded by cutting the raw response into the
complete `'\n'`-terminated lines; a trailing fragment with no `'\n'` makes
`ReadSlice` report `io.EOF`, which `parseNodes` treats as a normal end of
input, so the fragment is dropped.

`ServerList` (its `SetServers`, `PickServer` and `addresses`), `staticAddr`
and the constant `resultEnd` live in files of the repository that are not
part of the sources under verification; they are modelled from the spec and
from how the repository's own tests use them, and each such definition is
marked `Modelled from the spec:` in its doc comment.
-/

namespace Gomemcache

/-- Byte strings: the protocol data is ASCII, one `Char` per byte. -/
abbrev Bytes := List Char

/-- `startsWithB pat s` holds when `s` begins with `pat`. -/
def startsWithB : Bytes → Bytes → Bool
  | [], _ => true
  | _ :: _, [] => false
  | p :: ps, c :: cs => p == c && startsWithB ps cs

/-- `containsSub pat s` embeds Go `bytes.Contains(s, pat)`. -/
def containsSub (pat : Bytes) : Bytes → Bool
  | [] => startsWithB pat []
  | c :: cs => startsWithB pat (c :: cs) || containsSub pat cs

/-- Fuel-driven worker for `removeAllSub`; with fuel at least the length of
the input it removes every occurrence of the (non-empty) pattern
`p :: ps`, scanning left to right, exactly like Go
`bytes.ReplaceAll(s, pat, nil)`. -/
def removeAllSubGo (p : Char) (ps : Bytes) : Nat → Bytes → Bytes
  | 0, _ => []
  | _ + 1, [] => []
  | fuel + 1, c :: cs =>
    if startsWithB (p :: ps) (c :: cs) then removeAllSubGo p ps fuel (List.drop ps.length cs)
    else c :: removeAllSubGo p ps fuel cs

/-- Embeds Go `bytes.ReplaceAll(s, p :: ps, nil)`: every occurrence of the
pattern is deleted, leftmost first, non-overlapping. -/
def removeAllSub (p : Char) (ps : Bytes) (s : Bytes) : Bytes :=
  removeAllSubGo p ps s.length s

/-- Embeds Go `bytes.Split(s, sep)` for a single-byte separator. -/
def splitOnChar (sep : Char) : Bytes → List Bytes
  | [] => [[]]
  | c :: cs =>
    if c == sep then [] :: splitOnChar sep cs
    else
      match splitOnChar sep cs with
      | [] => [[c]]
      | r :: rs => (c :: r) :: rs

/-- Worker for `completeLines`; `cur` holds the current line reversed. -/
def completeLinesGo : Bytes → Bytes → List Bytes
  | _, [] => []
  | cur, c :: cs =>
    if c == '\n' then (c :: cur).reverse :: completeLinesGo [] cs
    else completeLinesGo (c :: cur) cs

/-- The complete `'\n'`-terminated lines of the stream, each including its
trailing `'\n'`, exactly the successful results of `bufio.ReadSlice('\n')`;
a trailing fragment with no `'\n'` is dropped (it arrives together with
`io.EOF`, which `parseNodes` maps to a normal return). -/
def completeLines (s : Bytes) : List Bytes :=
  completeLinesGo [] s

/-- Modelled from the spec: the terminal marker line of the discovery
response is `END\r\n` (the constant `resultEnd` is declared in a file of the
repository outside the verified sources). -/
def resultEnd : Bytes := "END\r\n".toList

/-- The marker of the payload line, Go `[]byte("amazonaws")`. -/
def awsMarker : Bytes := "amazonaws".toList

/-- The error marker, Go `[]byte("ERROR")`. -/
def errMarker : Bytes := "ERROR".toList

/-- The literal six characters `\n\r\n` (backslash n backslash r backslash n)
scrubbed from a payload line, Go `` []byte(`\n\r\n`) ``, split as head and
tail for `removeAllSub`. -/
def escTail : Bytes := "n\\r\\n".toList

/-- Scrubs a payload line: `bytes.ReplaceAll(line, []byte(`...`), nil)` with
the six-character literal pattern. -/
def scrub (line : Bytes) : Bytes :=
  removeAllSub '\\' escTail line

/-- The per-record loop of `parseNodes` (lines 148-156 of the source): each
record is split on `'|'`; exactly three fields `hostname|ip|port` yield the
node `hostname ++ ":" ++ port`, anything else is skipped. -/
def recordsToNodes : List Bytes → List Bytes
  | [] => []
  | r :: rs =>
    match splitOnChar '|' r with
    | [host, _ip, port] => (host ++ ':' :: port) :: recordsToNodes rs
    | _ => recordsToNodes rs

/-- The nodes produced from one payload line: scrub the literal escape
sequence, split on single spaces, convert each record. -/
def payloadNodes (line : Bytes) : List Bytes :=
  recordsToNodes (splitOnChar ' ' (scrub line))

/-- The error `parseNodes` can signal: `ErrInvalidCommand`. -/
inductive ParseError where
  | invalidCommand
deriving DecidableEq, Repr

/-- The line loop of `parseNodes` (lines 127-158 of the source): `nodes` is
the accumulated node list; a line equal to `resultEnd` returns it, a line
containing `ERROR` returns it with `ErrInvalidCommand`, a line containing
`amazonaws` replaces it with the records of that line, any other line is
skipped; exhausting the lines (EOF) returns it. -/
def parseNodesLines : List Bytes → List Bytes → List Bytes × Option ParseError
  | [], nodes => (nodes, none)
  | line :: rest, nodes =>
    if line = resultEnd then (nodes, none)
    else if containsSub errMarker line then (nodes, some .invalidCommand)
    else if containsSub awsMarker line then parseNodesLines rest (payloadNodes line)
    else parseNodesLines rest nodes

/-- Embeds `parseNodes` run over a raw response stream. -/
def parseNodes (input : Bytes) : List Bytes × Option ParseError :=
  parseNodesLines (completeLines input) []

/-- A record converter written after the spec's words, for comparison with
the source-translated `recordsToNodes`: a record with exactly three
`|`-delimited fields `hostname|ip|port` yields the node `hostname:port`
(the IP field is discarded); any other record yields nothing. -/
def recordToNode (r : Bytes) : Option Bytes :=
  match splitOnChar '|' r with
  | [host, _ip, port] => some (host ++ ':' :: port)
  | _ => none

/-- Modelled from the spec: the repository's `staticAddr` (the concrete
`net.Addr` stored in a `ServerList`) carries a network and an address
string; its canonical string form — Go `String()` — is the `str` field,
exactly how the repository's tests build and compare addresses. -/
structure StaticAddr where
  ntw : Bytes
  str : Bytes
deriving DecidableEq, Repr

/-- Modelled from the spec: the Hash Ring / `ServerList`; the claims only
touch its `addresses` field (the stored node addresses). -/
structure ServerList where
  addresses : List StaticAddr
deriving DecidableEq, Repr

/-- The network tag stored with every TCP address. -/
def tcpBytes : Bytes := "tcp".toList

/-- Errors a `discover` attempt can report. -/
inductive DiscoverError where
  | transportDial
  | transportWrite
  | transportFlush
  | invalidCommand
  | noNodesDiscovered
  | emptyMembership
deriving DecidableEq, Repr

/-- Modelled from the spec: `ServerList.SetServers` (the Hash Ring `Build`)
is not among the verified sources; per the spec it builds the server list
from the full node list, failing with `EmptyMembership` iff that list is
empty, and stores one address per node whose canonical string form is the
node string itself. -/
def setServers (nodes : List Bytes) : Except DiscoverError ServerList :=
  match nodes with
  | [] => .error .emptyMembership
  | _ => .ok ⟨nodes.map (fun n => ⟨tcpBytes, n⟩)⟩

/-- Embeds `containsNode` (lines 169-176 of the source): linear scan
comparing each stored address's string form with the node string. -/
def containsNode : List StaticAddr → Bytes → Bool
  | [], _ => false
  | n :: ns, node => if n.str = node then true else containsNode ns node

/-- The scan of lines 104-109 of the source: the loop sets `replaceNodes`
and breaks as soon as one discovered node is missing from the current
addresses. -/
def anyNewNode (currentNodes : List StaticAddr) : List Bytes → Bool
  | [] => false
  | node :: rest =>
    if !containsNode currentNodes node then true else anyNewNode currentNodes rest

/-- The mutable state of a `Discovery` the claims are about: its
`serverList` field, `nil` until a first successful discovery installs a
list. -/
structure Discovery where
  serverList : Option ServerList
deriving DecidableEq, Repr

/-- The rebuild decision of lines 99-110 of the source: replace when no
server list is installed yet, otherwise when some discovered node is
missing from the current addresses. -/
def replaceNodesFlag (d : Discovery) (nodes : List Bytes) : Bool :=
  match d.serverList with
  | none => true
  | some s => anyNewNode s.addresses nodes

/-- The environment one poll attempt runs against: whether the dial, the
write of `config get cluster\r\n` and the flush succeed, and the raw bytes
the configuration endpoint answers with. -/
structure PollEnv where
  dialOk : Bool
  writeOk : Bool
  flushOk : Bool
  response : Bytes

/-- Embeds `Discovery.discover` (lines 71-123 of the source) as a function
of the poll environment and the current state, returning the reported error
(if any) and the state after the attempt.  Every early `return err` leaves
`serverList` untouched; only the `replaceNodes` branch installs the freshly
built list. -/
def discover (env : PollEnv) (d : Discovery) : Option DiscoverError × Discovery :=
  if !env.dialOk then (some .transportDial, d)
  else if !env.writeOk then (some .transportWrite, d)
  else if !env.flushOk then (some .transportFlush, d)
  else
    match parseNodes env.response with
    | (_, some .invalidCommand) => (some .invalidCommand, d)
    | (nodes, none) =>
      if nodes.isEmpty then (some .noNodesDiscovered, d)
      else if replaceNodesFlag d nodes then
        match setServers nodes with
        | .error e => (some e, d)
        | .ok newList => (none, ⟨some newList⟩)
      else (none, d)

/-- Errors a key lookup can report. -/
inductive LookupError where
  | emptyMembership
  | noActiveMembership
deriving DecidableEq, Repr

/-- Modelled from the spec: the stable hash of an address or key string used
by the Hash Ring (the spec fixes no concrete function, only that it is
stable and deterministic). -/
def strHash (s : Bytes) : Nat :=
  s.foldl (fun h c => (h * 31 + c.toNat) % 4294967296) 5381

/-- Inserts a ring point into a list sorted ascending by hash. -/
def insertPoint (x : Nat × StaticAddr) : List (Nat × StaticAddr) → List (Nat × StaticAddr)
  | [] => [x]
  | y :: ys => if x.1 ≤ y.1 then x :: y :: ys else y :: insertPoint x ys

/-- Sorts ring points ascending by hash value. -/
def sortPoints : List (Nat × StaticAddr) → List (Nat × StaticAddr)
  | [] => []
  | x :: xs => insertPoint x (sortPoints xs)

/-- First ring point whose hash is at least the key's hash. -/
def findPoint (h : Nat) : List (Nat × StaticAddr) → Option StaticAddr
  | [] => none
  | p :: ps => if h ≤ p.1 then some p.2 else findPoint h ps

/-- Modelled from the spec: the Hash Ring lookup of `ServerList.PickServer`
— fail with `EmptyMembership` on an empty ring, otherwise hash the key,
binary-search the sorted ring for the first point of hash at least the
key's, wrapping around to the first point. -/
def ServerList.pickServer (s : ServerList) (key : Bytes) : Except LookupError StaticAddr :=
  match sortPoints (s.addresses.map (fun a => (strHash a.str, a))) with
  | [] => .error .emptyMembership
  | p :: ps =>
    match findPoint (strHash key) (p :: ps) with
    | some a => .ok a
    | none => .ok p.2

/-- Modelled from the spec: `Discovery.PickServer` delegates to the active
server list; before any snapshot has ever been installed (`serverList`
still `nil`) it fails with `NoActiveMembership`. -/
def Discovery.pickServer (d : Discovery) (key : Bytes) : Except LookupError StaticAddr :=
  match d.serverList with
  | none => .error .noActiveMembership
  | some s => s.pickServer key

/-- The addresses of the currently installed server list, empty when none
is installed. -/
def currentAddresses (d : Discovery) : List StaticAddr :=
  match d.serverList with
  | none => []
  | some s => s.addresses

/-- The literal response stream of `TestDiscovery_parseNodes`: a Go raw
string, so `\r\n` and `\n` inside the quoted lines are literal
backslash-letter pairs, the line breaks are real newlines, and the payload
line carries one trailing space after its literal `\n\r\n`. -/
def testLiteral : Bytes :=
  ("CONFIG cluster 0 136\\r\\n\n12\\n\nmyCluster.pc4ldq.0001.use1.cache.amazonaws.com|10.82.235.120|11211 myCluster.pc4ldq.0002.use1.cache.amazonaws.com|10.80.249.27|11211\\n\\r\\n \nEND\\r\\n").toList

/-- The response stream exactly as the spec's parser round-trip property
quotes it: identical to `testLiteral` except that the payload line ends
right after its literal `\n\r\n`, with no trailing space. -/
def specLiteral : Bytes :=
  ("CONFIG cluster 0 136\\r\\n\n12\\n\nmyCluster.pc4ldq.0001.use1.cache.amazonaws.com|10.82.235.120|11211 myCluster.pc4ldq.0002.use1.cache.amazonaws.com|10.80.249.27|11211\\n\\r\\n\nEND\\r\\n").toList

/-- The node list the round-trip property expects. -/
def expectedNodes : List Bytes :=
  ["myCluster.pc4ldq.0001.use1.cache.amazonaws.com:11211".toList,
   "myCluster.pc4ldq.0002.use1.cache.amazonaws.com:11211".toList]

/-- A response whose payload line precedes an `ERROR` line. -/
def errorAfterPayload : Bytes :=
  ("a.amazonaws.com|1|11211\nERROR\n").toList

/-- A successful poll environment discovering the single node
`a.amazonaws.com:11211`. -/
def envOneNode : PollEnv :=
  ⟨true, true, true, ("a.amazonaws.com|1|11211 \nEND\r\n").toList⟩

/-- The single node discovered by `envOneNode`. -/
def nodeA : Bytes := "a.amazonaws.com:11211".toList

/-- A poll environment whose dial fails. -/
def envDialFail : PollEnv := ⟨false, true, true, []⟩

/-- A poll environment whose response is just the terminal marker, so
parsing yields zero nodes. -/
def envNoNodes : PollEnv := ⟨true, true, true, ("END\r\n").toList⟩

/-- A server list already holding exactly the node of `envOneNode`. -/
def listWithNodeA : ServerList := ⟨[⟨tcpBytes, nodeA⟩]⟩

/-- A first payload line, discovering `x.amazonaws.com:11`. -/
def payloadLineOne : Bytes := ("x.amazonaws.com|1|11 \n").toList

/-- A second payload line, discovering `y.amazonaws.com:22`. -/
def payloadLineTwo : Bytes := ("y.amazonaws.com|2|22 \n").toList

/-! Helper lemmas, shared by several claims. -/

/-- The per-record loop equals a `filterMap` of the spec-worded record
converter. -/
theorem recordsToNodes_eq_filterMap (rs : List Bytes) :
    recordsToNodes rs = rs.filterMap recordToNode := by
  induction rs with
  | nil => rfl
  | cons r rs ih =>
    show (match splitOnChar '|' r with
      | [host, _ip, port] => (host ++ ':' :: port) :: recordsToNodes rs
      | _ => recordsToNodes rs) = _
    rw [List.filterMap_cons, recordToNode]
    rcases splitOnChar '|' r with _ | ⟨a, _ | ⟨b, _ | ⟨c, _ | ds⟩⟩⟩ <;> simp [ih]

/-- The break-on-first-missing-node scan is the existence of a discovered
node absent from the current addresses. -/
theorem anyNewNode_eq_true_iff (cur : List StaticAddr) (nodes : List Bytes) :
    anyNewNode cur nodes = true ↔ ∃ n ∈ nodes, containsNode cur n = false := by
  induction nodes with
  | nil => simp [anyNewNode]
  | cons x xs ih =>
    by_cases h : containsNode cur x
    · simp [anyNewNode, h, ih]
    · simp [anyNewNode, h]

/-- Scanning a prefix of lines none of which is the terminal marker or an
error line only updates the accumulated node list. -/
theorem parseNodesLines_scan_lead (ls rest : List Bytes) (acc : List Bytes)
    (h : ∀ l ∈ ls, l ≠ resultEnd ∧ containsSub errMarker l = false) :
    parseNodesLines (ls ++ rest) acc = parseNodesLines rest (parseNodesLines ls acc).1 := by
  induction ls generalizing acc with
  | nil => rfl
  | cons l ls ih =>
    obtain ⟨hEnd, hErr⟩ := h l (List.mem_cons_self l ls)
    have hTail : ∀ x ∈ ls, x ≠ resultEnd ∧ containsSub errMarker x = false :=
      fun x hx => h x (List.mem_cons_of_mem l hx)
    by_cases hAws : containsSub awsMarker l
    · simp [parseNodesLines, hEnd, hErr, hAws, ih _ hTail]
    · simp [parseNodesLines, hEnd, hErr, hAws, ih _ hTail]

/-- Lines holding neither an error marker nor the payload marker leave the
accumulated node list untouched until the scan ends. -/
theorem parseNodesLines_no_payload (rest : List Bytes) (acc : List Bytes)
    (h : ∀ l ∈ rest, containsSub errMarker l = false ∧ containsSub awsMarker l = false) :
    parseNodesLines rest acc = (acc, none) := by
  induction rest with
  | nil => rfl
  | cons l ls ih =>
    obtain ⟨hErr, hAws⟩ := h l (List.mem_cons_self l ls)
    have hTail : ∀ x ∈ ls, containsSub errMarker x = false ∧ containsSub awsMarker x = false :=
      fun x hx => h x (List.mem_cons_of_mem l hx)
    by_cases hEnd : l = resultEnd
    · simp [parseNodesLines, hEnd]
    · simp [parseNodesLines, hEnd, hErr, hAws, ih hTail]

/-- Building the server list from a non-empty node list always succeeds and
stores one address per node, in order. -/
theorem setServers_ok (nodes : List Bytes) (h : nodes ≠ []) :
    setServers nodes = .ok ⟨nodes.map (fun n => ⟨tcpBytes, n⟩)⟩ := by
  cases nodes with
  | nil => exact absurd rfl h
  | cons x xs => rfl

/-- A failing `discover` attempt leaves the state unchanged, or the attempt
reported no error at all. -/
theorem discover_state_dichotomy (env : PollEnv) (d : Discovery) :
    (discover env d).2 = d ∨ (discover env d).1 = none := by
  obtain ⟨dial, write, flush, resp⟩ := env
  cases dial <;> cases write <;> cases flush <;> simp [discover]
  rcases hp : parseNodes resp with ⟨nodes, _ | e⟩
  · by_cases hne : nodes = []
    · simp [hne]
    · by_cases hrf : replaceNodesFlag d nodes
      · rcases hs : setServers nodes with e2 | newList <;> simp [hne, hrf, hs]
      · simp [hne, hrf]
  · cases e; simp

/-! The claims. -/

/-- C1: for a poll attempt that successfully parses a non-empty node list,
`discover` rebuilds the active server list iff no list is installed yet or
at least one newly discovered address is missing from the current
addresses — in particular, a previously known address disappearing alone
never triggers a rebuild — and when it rebuilds it installs the list built
from the full newly discovered node list, not a merge with the old one. -/
theorem discover_rebuild_iff_new_address (env : PollEnv) (d : Discovery) (nodes : List Bytes)
    (hd : env.dialOk = true) (hw : env.writeOk = true) (hf : env.flushOk = true)
    (hp : parseNodes env.response = (nodes, none)) (hne : nodes ≠ []) :
    discover env d =
      if d.serverList = none ∨ ∃ n ∈ nodes, containsNode (currentAddresses d) n = false
      then (none, ⟨some ⟨nodes.map (fun n => ⟨tcpBytes, n⟩)⟩⟩)
      else (none, d) := by
  have hne2 : nodes.isEmpty = false := by simpa using hne
  obtain ⟨sl⟩ := d
  cases sl with
  | none =>
    simp [discover, hd, hw, hf, hp, hne2, replaceNodesFlag, setServers_ok nodes hne,
      currentAddresses]
  | some s =>
    by_cases hex : ∃ n ∈ nodes, containsNode s.addresses n = false
    · have hflag : replaceNodesFlag ⟨some s⟩ nodes = true := by
        simpa [replaceNodesFlag] using (anyNewNode_eq_true_iff s.addresses nodes).2 hex
      simp [discover, hd, hw, hf, hp, hne2, hflag, setServers_ok nodes hne,
        currentAddresses, hex]
    · have hflag : replaceNodesFlag ⟨some s⟩ nodes = false := by
        simp only [replaceNodesFlag]
        rw [Bool.eq_false_iff]
        intro hcon
        exact hex ((anyNewNode_eq_true_iff s.addresses nodes).1 hcon)
      simp [discover, hd, hw, hf, hp, hne2, hflag, currentAddresses, hex]

/-- Witness for C1: a first discovery against an empty state installs the
list built from the discovered node. -/
theorem discover_rebuild_iff_new_address_witness :
    discover envOneNode (Discovery.mk none) =
      if (Discovery.mk none).serverList = none ∨
          ∃ n ∈ [nodeA], containsNode (currentAddresses (Discovery.mk none)) n = false
      then (none, ⟨some ⟨[nodeA].map (fun n => ⟨tcpBytes, n⟩)⟩⟩)
      else (none, Discovery.mk none) :=
  discover_rebuild_iff_new_address envOneNode (Discovery.mk none) [nodeA]
    rfl rfl rfl (by decide) (by decide)

/-- C2: for every key, calling `PickServer` before any snapshot has ever
been installed (the internal `serverList` still `nil`) returns the
`NoActiveMembership` error to the caller rather than crashing or returning
a node. -/
theorem pickServer_before_first_discovery (key : Bytes) :
    Discovery.pickServer (Discovery.mk none) key = .error .noActiveMembership := rfl

set_option maxRecDepth 200000 in
/-- Counterexample to C3 as stated: on exactly the stream the spec quotes —
whose payload line ends right after its literal `\n\r\n`, with no trailing
space — the parse succeeds but the second returned node keeps a trailing
newline character, so the result is not the expected address pair. -/
theorem parse_spec_literal_not_expected :
    parseNodes specLiteral =
      (["myCluster.pc4ldq.0001.use1.cache.amazonaws.com:11211".toList,
        ("myCluster.pc4ldq.0002.use1.cache.amazonaws.com:11211" ++ "\n").toList], none) ∧
    parseNodes specLiteral ≠ (expectedNodes, none) := by
  constructor <;> decide

set_option maxRecDepth 200000 in
/-- C3 amended: on the literal stream of the repository's own test — the
spec's quoted stream with one trailing space after the payload line's
literal `\n\r\n` — `parseNodes` returns no error and exactly the two
expected addresses, character for character. -/
theorem parse_test_literal_roundtrip :
    parseNodes testLiteral = (expectedNodes, none) := by decide

/-- Counterexample to C4 as stated: when a payload line precedes the
`ERROR` line, the node list returned together with `InvalidCommand` is not
empty. -/
theorem parse_error_line_keeps_collected_nodes :
    (parseNodes errorAfterPayload).2 = some .invalidCommand ∧
    (parseNodes errorAfterPayload).1 ≠ [] := by
  constructor <;> decide

/-- C4 amended: whenever the scan reaches a complete line containing
`ERROR` — that is, no earlier line is the terminal `END\r\n` marker or
itself an error line — `parseNodes` fails with `InvalidCommand`, returning
alongside the error the node list accumulated from the preceding lines
(possibly non-empty). -/
theorem parse_error_line_invalidCommand (ls rest : List Bytes) (e : Bytes) (acc : List Bytes)
    (hls : ∀ l ∈ ls, l ≠ resultEnd ∧ containsSub errMarker l = false)
    (he : containsSub errMarker e = true) :
    parseNodesLines (ls ++ e :: rest) acc =
      ((parseNodesLines ls acc).1, some .invalidCommand) := by
  rw [parseNodesLines_scan_lead ls (e :: rest) acc hls]
  have hEnd : e ≠ resultEnd := by
    intro hcon
    rw [hcon] at he
    exact absurd he (by decide)
  simp [parseNodesLines, hEnd, he]

/-- Witness for C4 amended: a payload line followed by an error line fails
with `InvalidCommand`, keeping the record of the payload line. -/
theorem parse_error_line_invalidCommand_witness :
    parseNodesLines ([payloadLineOne] ++ ("ERROR\n").toList :: []) [] =
      ((parseNodesLines [payloadLineOne] []).1, some .invalidCommand) :=
  parse_error_line_invalidCommand [payloadLineOne] [] (("ERROR\n").toList) []
    (by decide) (by decide)

/-- C5: every failing `discover` attempt is atomic with respect to the
active server list — whatever error it reports (dial, write or flush
failure, parse error, zero nodes, or a build failure), the state after the
attempt equals the state before it, so a previously installed snapshot
stays active. -/
theorem discover_failure_preserves_serverList (env : PollEnv) (d : Discovery)
    (e : DiscoverError) (h : (discover env d).1 = some e) :
    (discover env d).2 = d := by
  rcases discover_state_dichotomy env d with h2 | h2
  · exact h2
  · rw [h2] at h
    cases h

/-- Witness for C5: a failed dial with a snapshot installed leaves that
snapshot in place. -/
theorem discover_failure_preserves_serverList_witness :
    (discover envDialFail (Discovery.mk (some listWithNodeA))).2 =
      Discovery.mk (some listWithNodeA) :=
  discover_failure_preserves_serverList envDialFail (Discovery.mk (some listWithNodeA))
    .transportDial (by decide)

/-- C6: a discovery attempt finding only addresses already present among
the current addresses leaves the `serverList` reference unchanged, hence
for every key `PickServer` returns after the attempt exactly what it
returned before it. -/
theorem discover_same_nodeset_noop (env : PollEnv) (d : Discovery) (s : ServerList)
    (nodes : List Bytes)
    (hs : d.serverList = some s)
    (hd : env.dialOk = true) (hw : env.writeOk = true) (hf : env.flushOk = true)
    (hp : parseNodes env.response = (nodes, none)) (hne : nodes ≠ [])
    (hall : ∀ n ∈ nodes, containsNode s.addresses n = true) :
    discover env d = (none, d) ∧
      ∀ key, ((discover env d).2).pickServer key = d.pickServer key := by
  have hne2 : nodes.isEmpty = false := by simpa using hne
  have hflag : replaceNodesFlag d nodes = false := by
    have hany : anyNewNode s.addresses nodes = false := by
      rw [Bool.eq_false_iff]
      intro hcon
      rcases (anyNewNode_eq_true_iff s.addresses nodes).1 hcon with ⟨n, hn, hfalse⟩
      rw [hall n hn] at hfalse
      cases hfalse
    simp [replaceNodesFlag, hs, hany]
  have hmain : discover env d = (none, d) := by
    simp [discover, hd, hw, hf, hp, hne2, hflag]
  exact ⟨hmain, fun key => by rw [hmain]⟩

/-- Witness for C6: rediscovering the already-installed node changes
nothing. -/
theorem discover_same_nodeset_noop_witness :
    discover envOneNode (Discovery.mk (some listWithNodeA)) =
        (none, Discovery.mk (some listWithNodeA)) ∧
      ∀ key, ((discover envOneNode (Discovery.mk (some listWithNodeA))).2).pickServer key =
        (Discovery.mk (some listWithNodeA)).pickServer key :=
  discover_same_nodeset_noop envOneNode (Discovery.mk (some listWithNodeA)) listWithNodeA
    [nodeA] rfl rfl rfl rfl (by decide) (by decide) (by decide)

/-- C7: a poll attempt whose transport succeeds and whose response parses
without error but yields zero node records fails with `NoNodesDiscovered`
(`ErrAutoDiscover`) and installs no server list. -/
theorem discover_zero_nodes_fails (env : PollEnv) (d : Discovery)
    (hd : env.dialOk = true) (hw : env.writeOk = true) (hf : env.flushOk = true)
    (hp : parseNodes env.response = ([], none)) :
    discover env d = (some .noNodesDiscovered, d) := by
  simp [discover, hd, hw, hf, hp]

/-- Witness for C7: a response consisting of the terminal marker alone
yields zero nodes and the `ErrAutoDiscover` failure. -/
theorem discover_zero_nodes_fails_witness :
    discover envNoNodes (Discovery.mk none) =
      (some .noNodesDiscovered, Discovery.mk none) :=
  discover_zero_nodes_fails envNoNodes (Discovery.mk none) rfl rfl rfl (by decide)

/-- C8: on a payload line the nodes are exactly the space-separated records
of the scrubbed line passed through the spec's record rule: a record that
splits on `'|'` into exactly three fields `hostname|ip|port` contributes
exactly `hostname:port` (the middle IP field discarded), and any record not
splitting into exactly three fields is skipped without failing the
parse. -/
theorem payloadNodes_skips_malformed_records (line : Bytes) :
    payloadNodes line = (splitOnChar ' ' (scrub line)).filterMap recordToNode :=
  recordsToNodes_eq_filterMap (splitOnChar ' ' (scrub line))

/-- C10: every payload line overwrites the accumulated node list — after a
scanned prefix (which may itself contain payload lines), a payload line `p`
followed only by lines with no payload and no error marker makes the parse
return exactly the records of `p`, discarding all nodes parsed from earlier
payload lines. -/
theorem parse_last_payload_line_wins (ls : List Bytes) (p : Bytes) (rest : List Bytes)
    (acc : List Bytes)
    (hls : ∀ l ∈ ls, l ≠ resultEnd ∧ containsSub errMarker l = false)
    (hpAws : containsSub awsMarker p = true)
    (hpErr : containsSub errMarker p = false)
    (hpEnd : p ≠ resultEnd)
    (hrest : ∀ l ∈ rest, containsSub errMarker l = false ∧ containsSub awsMarker l = false) :
    parseNodesLines (ls ++ p :: rest) acc = (payloadNodes p, none) := by
  rw [parseNodesLines_scan_lead ls (p :: rest) acc hls]
  simp [parseNodesLines, hpEnd, hpErr, hpAws, parseNodesLines_no_payload rest _ hrest]

/-- Witness for C10: with two payload lines only the second line's record
survives. -/
theorem parse_last_payload_line_wins_witness :
    parseNodesLines ([payloadLineOne] ++ payloadLineTwo :: []) [] =
      (payloadNodes payloadLineTwo, none) :=
  parse_last_payload_line_wins [payloadLineOne] payloadLineTwo [] []
    (by decide) (by decide) (by decide) (by decide) (by decide)

end Gomemcache
